import Mathlib

/-!
Shallow embedding of the `ssz-rs-test-gen` code generator
(`ssz-rs-test-gen/src/main.rs`) and proofs about its behaviour.

Modelling conventions:
* Rust panics (`unwrap`, `assert!`, slice/index out of bounds, `unimplemented!`)
  are modelled by `Option`/`Except` results: `none` / `.error` means the
  process aborts.  The one place where the text of the panic message matters
  (the `assert!` in `load_test_case`) carries the message in `Except.error`.
* Strings are modelled at the character level; the fixture names and paths the
  generator manipulates are ASCII, where Rust's byte indexing and character
  indexing agree.
* `serde_yaml::Value` is modelled by the inductive `Yaml`; mappings are
  association lists in insertion order (serde_yaml mappings iterate in
  insertion order).
* Brace characters inside generated-source strings are written with `\x7b`
  and `\x7d` escapes.
-/

/-! ## String utilities (models of the `str` methods used by the generator) -/

/-- Does `pat` occur at the head of `cs`?  (helper for substring search) -/
def leads_chars : List Char → List Char → Bool
  | [], _ => true
  | _ :: _, [] => false
  | p :: ps, c :: cs => p = c && leads_chars ps cs

/-- Does `pat` occur anywhere in the character list? -/
def has_sub_chars (pat : List Char) : List Char → Bool
  | [] => leads_chars pat []
  | c :: rest => leads_chars pat (c :: rest) || has_sub_chars pat rest

/-- Model of Rust `str::contains` with a string pattern. -/
def str_has (s pat : String) : Bool :=
  has_sub_chars pat.toList s.toList

/-- Character-level helper for `str::strip_prefix`. -/
def strip_front_chars : List Char → List Char → Option (List Char)
  | [], rest => some rest
  | _ :: _, [] => none
  | p :: ps, c :: cs => if p = c then strip_front_chars ps cs else none

/-- Model of Rust `str::strip_prefix` (also used for `PathBuf::strip_prefix`
on the slash-separated path strings the generator builds). -/
def strip_front (pre s : String) : Option String :=
  (strip_front_chars pre.toList s.toList).map String.mk

/-- Character-level helper for Rust `str::split(char)`. -/
def split_char_aux (sep : Char) : List Char → List (List Char)
  | [] => [[]]
  | c :: cs =>
    let rest := split_char_aux sep cs
    if c == sep then [] :: rest
    else match rest with
      | [] => [[c]]
      | g :: gs => (c :: g) :: gs

/-- Model of Rust `str::split(char)` (always returns at least one piece). -/
def split_char (sep : Char) (s : String) : List String :=
  (split_char_aux sep s.toList).map (fun cs => String.mk cs)

/-- Model of `String::to_lowercase` for the ASCII names the generator sees. -/
def lower_str (s : String) : String :=
  String.mk (s.toList.map Char.toLower)

/-- ASCII whitespace test (the generator's inputs contain no exotic
whitespace, so this matches Rust `char::is_whitespace` on them). -/
def is_ws (c : Char) : Bool :=
  c == ' ' || c == '\n' || c == '\t' || c == '\r'

/-- Model of Rust `str::trim`. -/
def trim_str (s : String) : String :=
  String.mk (((s.toList.dropWhile is_ws).reverse.dropWhile is_ws).reverse)

/-- The single-quote character (written via its code point). -/
def quote_char : Char := Char.ofNat 39

/-- Model of `str::trim_matches('\x27')`: strip all leading and trailing
single quotes. -/
def trim_quotes (s : String) : String :=
  String.mk (((s.toList.dropWhile (· == quote_char)).reverse.dropWhile
    (· == quote_char)).reverse)

/-- Model of `Vec::join(", ")` / `slice::join`. -/
def join_sep (sep : String) : List String → String
  | [] => ""
  | [x] => x
  | x :: y :: xs => x ++ sep ++ join_sep sep (y :: xs)

/-- Model of `String::drop` by characters (Rust byte slicing `&s[n..]` on the
ASCII tokens the generator slices). -/
def drop_chars (s : String) (n : Nat) : String :=
  String.mk (s.toList.drop n)

/-! ## The schema-less value model (`serde_yaml::Value`) -/

/-- Model of `serde_yaml::Value` as consumed by the generator: scalars,
sequences and mappings.  Mappings are association lists in insertion order. -/
inductive Yaml where
  | str (s : String)
  | nat (n : Nat)
  | bool (b : Bool)
  | seq (xs : List Yaml)
  | map (kvs : List (Yaml × Yaml))

/-- Model of `serde_yaml::Value::as_str`. -/
def yaml_as_str : Yaml → Option String
  | .str s => some s
  | _ => none

/-- Model of `serde_yaml::Mapping::get` with a string key (first match in
insertion order). -/
def yaml_map_get (key : String) : List (Yaml × Yaml) → Option Yaml
  | [] => none
  | (k, v) :: rest =>
    match k with
    | .str s => if s = key then some v else yaml_map_get key rest
    | _ => yaml_map_get key rest

/-- Does a serde_yaml scalar string need quoting when re-serialized?
(model of serde_yaml's plain-scalar rules for the strings in the corpus:
boolean/null lookalikes, the empty string and digit strings get quoted). -/
def needs_quote (s : String) : Bool :=
  s == "true" || s == "false" || s == "null" || s == "~" || s == "" ||
    s.toList.all Char.isDigit

/-- Scalar part of the `serde_yaml::to_string` model; `none` for sequences
and mappings.  serde_yaml terminates every document with a newline. -/
def yaml_scalar_string : Yaml → Option String
  | .str s =>
    some ((if needs_quote s then String.mk [quote_char] ++ s ++ String.mk [quote_char]
           else s) ++ "\n")
  | .nat n => some (Nat.repr n ++ "\n")
  | .bool b => some ((if b then "true" else "false") ++ "\n")
  | _ => none

mutual
/-- Block part of the `serde_yaml::to_string` model (sequences and
mappings; nested-collection indentation is not exercised by the
generator's inputs and is not modelled). -/
def yaml_block_string (v : Yaml) : String :=
  match v with
  | .seq [] => "[]\n"
  | .seq (x :: xs) => yaml_seq_items (x :: xs)
  | .map [] => "\x7b\x7d\n"
  | .map (kv :: rest) => yaml_map_items (kv :: rest)
  | v =>
    match yaml_scalar_string v with
    | some s => s
    | none => ""
termination_by (sizeOf v, 0)

/-- One `- item` line per sequence element. -/
def yaml_seq_items (xs : List Yaml) : String :=
  match xs with
  | [] => ""
  | x :: rest => "- " ++ trim_str (yaml_item_string x) ++ "\n" ++ yaml_seq_items rest
termination_by (sizeOf xs, 0)

/-- One `key: value` line per mapping entry. -/
def yaml_map_items (kvs : List (Yaml × Yaml)) : String :=
  match kvs with
  | [] => ""
  | (k, v) :: rest =>
    trim_str (yaml_item_string k) ++ ": " ++ trim_str (yaml_item_string v) ++ "\n" ++
      yaml_map_items rest
termination_by (sizeOf kvs, 0)

/-- Render one node (scalar or nested block). -/
def yaml_item_string (v : Yaml) : String :=
  match yaml_scalar_string v with
  | some s => s
  | none => yaml_block_string v
termination_by (sizeOf v, 1)
end

/-- Model of `serde_yaml::to_string(v)` (scalars handled without recursion so
that concrete scalar renderings compute definitionally). -/
def yaml_to_string (v : Yaml) : String :=
  match yaml_scalar_string v with
  | some s => s
  | none => yaml_block_string v

/-- `value_to_compact_string` from the generator:
`serde_yaml::to_string(v).unwrap().trim().to_string()`. -/
def value_to_compact_string (v : Yaml) : String :=
  trim_str (yaml_to_string v)

/-! ## Wide-integer reconstruction (`to_rust_u256`) -/

/-- Model of `str::parse::<BigUint>`: a non-empty string of decimal digits
parses to the corresponding natural number. -/
def parse_biguint_chars : List Char → Nat → Option Nat
  | [], acc => some acc
  | c :: cs, acc =>
    if c.isDigit then parse_biguint_chars cs (acc * 10 + (c.toNat - 48))
    else none

/-- Model of `str::parse::<BigUint>` on a string. -/
def parse_biguint (s : String) : Option Nat :=
  match s.toList with
  | [] => none
  | c :: cs => parse_biguint_chars (c :: cs) 0

/-- Little-endian base-256 digit extraction with recursion fuel.  Fuel 33
suffices for `to_rust_u256`: a value needing more than 33 bytes is truncated
at 33 bytes, which is still rejected by the 32-byte length assertion, so the
observable behaviour of `to_rust_u256` agrees with `BigUint::to_bytes_le`
for every input. -/
def bytes_le_aux : Nat → Nat → List Nat
  | 0, _ => []
  | fuel + 1, n => if n = 0 then [] else n % 256 :: bytes_le_aux fuel (n / 256)

/-- Model of `BigUint::to_bytes_le` (num-bigint returns `[0]` for zero). -/
def to_bytes_le (n : Nat) : List Nat :=
  if n = 0 then [0] else bytes_le_aux 33 n

/-- Value of a little-endian byte sequence (specification-side decoder). -/
def leb_decode : List Nat → Nat
  | [] => 0
  | b :: bs => b + 256 * leb_decode bs

/-- Rust `Debug` rendering of a `Vec<u8>`, as produced by `{x_bytes:?}`. -/
def debug_list (bs : List Nat) : String :=
  "[" ++ join_sep ", " (bs.map Nat.repr) ++ "]"

/-- The `U256` literal text produced by `to_rust_u256` for a byte vector. -/
def u256_literal (bs : List Nat) : String :=
  "U256::try_from_le_slice(Vec::<u8>::from_iter(" ++ debug_list bs ++
    ").as_ref()).unwrap()"

/-- `to_rust_u256` from the generator: read the scalar as a string, parse it
as a `BigUint`, take its minimal little-endian bytes, assert at most 32
bytes, right-pad with zeros to 32 bytes and render the `U256` literal. -/
def to_rust_u256 (v : Yaml) : Option String :=
  match yaml_as_str v with
  | none => none
  | some s =>
    match parse_biguint s with
    | none => none
    | some x =>
      let x_bytes := to_bytes_le x
      if x_bytes.length ≤ 32 then
        some (u256_literal (x_bytes ++ List.replicate (32 - x_bytes.length) 0))
      else none

/-! ## Hex decoding and bit-sequence reconstruction -/

/-- One hexadecimal digit (upper or lower case), as accepted by
`hex::decode`. -/
def hex_digit (c : Char) : Option Nat :=
  if '0' ≤ c ∧ c ≤ '9' then some (c.toNat - 48)
  else if 'a' ≤ c ∧ c ≤ 'f' then some (c.toNat - 87)
  else if 'A' ≤ c ∧ c ≤ 'F' then some (c.toNat - 55)
  else none

/-- Model of `hex::decode`: pairs of hex digits; odd length or a bad digit is
an error. -/
def hex_decode_chars : List Char → Option (List Nat)
  | [] => some []
  | [_] => none
  | a :: b :: rest =>
    match hex_digit a, hex_digit b with
    | some hi, some lo => (hex_decode_chars rest).map (fun bs => (16 * hi + lo) :: bs)
    | _, _ => none

/-- Model of `hex::decode` on a string. -/
def hex_decode (s : String) : Option (List Nat) :=
  hex_decode_chars s.toList

/-- `to_rust_bitvector` from the generator: the value is a `0x`-prefixed hex
string; strip the prefix, decode, and render the fallible byte-slice
conversion for the given Rust type. -/
def to_rust_bitvector (v : Yaml) (rust_type : String) : Option String :=
  match yaml_as_str v with
  | none => none
  | some data =>
    match strip_front "0x" data with
    | none => none
    | some hex_part =>
      match hex_decode hex_part with
      | none => none
      | some bytes =>
        some ("<" ++ rust_type ++ " as TryFrom<&[u8]>>::try_from(Vec::<u8>::from_iter(" ++
          debug_list bytes ++ ").as_ref()).unwrap()")

/-- `to_rust_bitlist` from the generator (same body as `to_rust_bitvector`,
kept separate as in the source). -/
def to_rust_bitlist (v : Yaml) (rust_type : String) : Option String :=
  match yaml_as_str v with
  | none => none
  | some data =>
    match strip_front "0x" data with
    | none => none
    | some hex_part =>
      match hex_decode hex_part with
      | none => none
      | some bytes =>
        some ("<" ++ rust_type ++ " as TryFrom<&[u8]>>::try_from(Vec::<u8>::from_iter(" ++
          debug_list bytes ++ ").as_ref()).unwrap()")

/-! ## Bounded-sequence reconstruction (`to_rust_vector`) -/

/-- Apply `to_rust_u256` to every element of a sequence. -/
def u256s_of_list : List Yaml → Option (List String)
  | [] => some []
  | x :: xs =>
    match to_rust_u256 x with
    | none => none
    | some s => (u256s_of_list xs).map (fun ss => s :: ss)

/-- `v.as_str().unwrap().trim().to_string()` over a sequence. -/
def trimmed_strs_of_list : List Yaml → Option (List String)
  | [] => some []
  | x :: xs =>
    match yaml_as_str x with
    | none => none
    | some s => (trimmed_strs_of_list xs).map (fun ss => trim_str s :: ss)

/-- `to_rust_vector` from the generator: `U256` and `u128` element types get
special element renderings; otherwise the element type is parsed back out of
the Rust type text and elements are rendered compactly. -/
def to_rust_vector (v : Yaml) (rust_type : String) : Option String :=
  if str_has rust_type "U256" then
    match v with
    | .seq values =>
      (u256s_of_list values).map (fun vals =>
        rust_type ++ "::try_from(Vec::<U256>::from_iter([" ++ join_sep ", " vals ++
          "])).unwrap()")
    | _ => none
  else if str_has rust_type "u128" then
    match v with
    | .seq values =>
      (trimmed_strs_of_list values).map (fun vals =>
        rust_type ++ "::try_from(Vec::<u128>::from_iter([" ++ join_sep ", " vals ++
          "])).unwrap()")
    | _ => none
  else
    match split_char '<' rust_type with
    | _ :: part1 :: _ =>
      match split_char ',' part1 with
      | inner_type :: _ =>
        match v with
        | .seq values =>
          some (rust_type ++ "::try_from(Vec::<" ++ inner_type ++ ">::from_iter([" ++
            join_sep ", " (values.map value_to_compact_string) ++ "])).unwrap()")
        | _ => none
      | [] => none
    | _ => none

/-! ## Named-container reconstruction (`to_field_value` / `to_rust_struct`) -/

mutual
/-- `to_field_value` from the generator: container-and-field-specific
rendering rules.  `none` models the panics (`unwrap` on a wrongly-shaped
value, `unimplemented!` for an unknown `BitsStruct` field). -/
def to_field_value (key : String) (v : Yaml) (rust_type : String) : Option String :=
  if rust_type = "VarTestStruct" then
    if key = "b" then
      match v with
      | .seq values =>
        some ("List::<u16, 1024>::try_from(Vec::<u16>::from_iter([" ++
          join_sep ", " (values.map value_to_compact_string) ++ "])).unwrap()")
      | _ => none
    else some (value_to_compact_string v)
  else if rust_type = "ComplexTestStruct" then
    if key = "b" then
      match v with
      | .seq values =>
        some ("List::<u16, 128>::try_from(Vec::<u16>::from_iter([" ++
          join_sep ", " (values.map value_to_compact_string) ++ "])).unwrap()")
      | _ => none
    else if key = "d" then
      match yaml_as_str v with
      | none => none
      | some data =>
        match strip_front "0x" data with
        | none => none
        | some hex_part =>
          match hex_decode hex_part with
          | none => none
          | some bytes =>
            some ("List::<u8, 256>::try_from(Vec::<u8>::from_iter(" ++
              debug_list bytes ++ ")).unwrap()")
    else if key = "e" then to_rust_struct v "VarTestStruct"
    else if key = "f" then
      match v with
      | .seq values =>
        (structs_of_list values "FixedTestStruct").map (fun vals =>
          "Vector::<FixedTestStruct, 4>::try_from(vec![" ++ join_sep ", " vals ++
            "]).unwrap()")
      | _ => none
    else if key = "g" then
      match v with
      | .seq values =>
        (structs_of_list values "VarTestStruct").map (fun vals =>
          "Vector::<VarTestStruct, 2>::try_from(vec![" ++ join_sep ", " vals ++
            "]).unwrap()")
      | _ => none
    else some (value_to_compact_string v)
  else if rust_type = "BitsStruct" then
    if key = "a" then to_rust_bitlist v "Bitlist::<5>"
    else if key = "b" then to_rust_bitvector v "Bitvector::<2>"
    else if key = "c" then to_rust_bitvector v "Bitvector::<1>"
    else if key = "d" then to_rust_bitlist v "Bitlist::<6>"
    else if key = "e" then to_rust_bitvector v "Bitvector::<8>"
    else none
  else some (value_to_compact_string v)
termination_by (sizeOf v, 1)

/-- `to_rust_struct` from the generator: the value must be a mapping; every
field is rendered by `to_field_value` under its lower-cased name, and the
collected `name: value` pairs are spliced into a struct literal.  No check
for duplicate or missing field names is performed. -/
def to_rust_struct (v : Yaml) (rust_type : String) : Option String :=
  match v with
  | .map kvs =>
    (struct_fields kvs rust_type).map (fun fields =>
      rust_type ++ "\x7b" ++ join_sep ", " fields ++ "\x7d")
  | _ => none
termination_by (sizeOf v, 0)

/-- The loop body of `to_rust_struct`: render `key: value` text for every
mapping entry in insertion order (keys must be strings). -/
def struct_fields (kvs : List (Yaml × Yaml)) (rust_type : String) :
    Option (List String) :=
  match kvs with
  | [] => some []
  | (k, v) :: rest =>
    match k with
    | .str ks =>
      match to_field_value (lower_str ks) v rust_type with
      | none => none
      | some fv =>
        (struct_fields rest rust_type).map (fun fs =>
          (lower_str ks ++ ": " ++ fv) :: fs)
    | _ => none
termination_by (sizeOf kvs, 0)

/-- `to_rust_struct` mapped over a sequence (fields `f`/`g` of
`ComplexTestStruct`). -/
def structs_of_list (xs : List Yaml) (rust_type : String) : Option (List String) :=
  match xs with
  | [] => some []
  | x :: rest =>
    match to_rust_struct x rust_type with
    | none => none
    | some s => (structs_of_list rest rust_type).map (fun ss => s :: ss)
termination_by (sizeOf xs, 0)
end

/-- The six exemplar container type names the generator hard-codes. -/
def exemplar_containers : List String :=
  ["SingleFieldTestStruct", "SmallTestStruct", "FixedTestStruct",
   "VarTestStruct", "ComplexTestStruct", "BitsStruct"]

/-- `to_rust_value` from the generator: dispatch on markers in the case name,
falling back to the compact scalar rendering with quote stripping. -/
def to_rust_value (name rust_type : String) (v : Yaml) : Option String :=
  if str_has name "uint_256" then to_rust_u256 v
  else if str_has name "bitvec" then to_rust_bitvector v rust_type
  else if str_has name "bitlist" then to_rust_bitlist v rust_type
  else if str_has name "vec_" then to_rust_vector v rust_type
  else if exemplar_containers.any (fun target => str_has name target) then
    to_rust_struct v rust_type
  else some (trim_quotes (value_to_compact_string v))

/-! ## Type descriptor resolution (`to_element_type` / `to_rust_type`) -/

/-- `to_element_type` from the generator: `"bool"` and `"uint256"` are special
cases; any other token is byte-sliced as `&s[4..]` (a panic, modelled by
`none`, when the token is shorter than four characters) and prefixed with
`u`. -/
def to_element_type (s : String) : Option String :=
  if s = "bool" then some s
  else if s = "uint256" then some "U256"
  else if 4 ≤ s.length then some ("u" ++ drop_chars s 4)
  else none

/-- The SSZ fixture categories (`enum SszType`). -/
inductive SszType where
  | basic_vector
  | bitlist
  | bitvector
  | boolean
  | container
  | uint
deriving DecidableEq

/-- The `Display` rendering of a category (`impl fmt::Display for SszType`). -/
def ssz_type_name : SszType → String
  | .basic_vector => "basic_vector"
  | .bitlist => "bitlist"
  | .bitvector => "bitvector"
  | .boolean => "boolean"
  | .container => "containers"
  | .uint => "uints"

/-- `to_rust_type` from the generator: parse the `_`-delimited case name into
the Rust type text for the category.  `none` models the index/slice panics on
too-short names. -/
def to_rust_type (t : SszType) (name : String) : Option String :=
  match t with
  | .basic_vector =>
    match split_char '_' name with
    | _ :: elem :: bound :: _ =>
      (to_element_type elem).map (fun element_type =>
        "Vector::<" ++ element_type ++ ", " ++ bound ++ ">")
    | _ => none
  | .bitlist =>
    match split_char '_' name with
    | _ :: bound :: _ =>
      some (if bound = "no" then "Bitlist::<256>" else "Bitlist::<" ++ bound ++ ">")
    | _ => none
  | .bitvector =>
    match split_char '_' name with
    | _ :: bound :: _ => some ("Bitvector::<" ++ bound ++ ">")
    | _ => none
  | .boolean => some "bool"
  | .container =>
    match split_char '_' name with
    | first :: _ => some first
    | [] => none
  | .uint =>
    match split_char '_' name with
    | _ :: width :: _ =>
      some (if str_has width "256" then "U256" else "u" ++ width)
    | _ => none

/-! ## Test-function naming (`convert_case` snake case) -/

/-- Word splitting for the snake-case conversion: separators (`_`, `-`,
space) and lower-to-upper transitions start a new word.  This models
`convert_case::Case::Snake` on the generator's case names (which contain no
digit-adjacent-letter boundaries). -/
def snake_split (cur : List Char) : List Char → List (List Char)
  | [] => [cur.reverse]
  | c :: rest =>
    if c = '_' ∨ c = '-' ∨ c = ' ' then cur.reverse :: snake_split [] rest
    else match cur with
      | p :: _ =>
        if p.isLower && c.isUpper then cur.reverse :: snake_split [c] rest
        else snake_split (c :: cur) rest
      | [] => snake_split [c] rest

/-- Model of `name.to_case(Case::Snake)`. -/
def to_snake (s : String) : String :=
  join_sep "_"
    (((snake_split [] s.toList).filter (fun w => !w.isEmpty)).map
      (fun w => String.mk (w.map Char.toLower)))

/-! ## Fixture cases and the corpus loader -/

/-- The `Format` enum of the generator (`Valid` is the `Default`). -/
inductive CaseFormat where
  | valid
  | invalid
deriving DecidableEq

/-- The `TestCase` struct: optional expected root, optional value tree,
payload path and format tag. -/
structure TestCase where
  root : Option String := none
  value : Option Yaml := none
  data_path : Option String := none
  format : CaseFormat := .valid

/-- The panic message of `assert!(part_name.contains("ssz_snappy"))` in
`load_test_case` (Rust's `assert!` stringifies the condition; the offending
file name does not appear in the message). -/
def snappy_assert_msg : String :=
  "assertion failed: part_name.contains(\"ssz_snappy\")"

/-- The loop body of `Generator::load_test_case` for one child of a case
directory: a name containing `meta` yields the expected root (from the
`root` field of the parsed mapping), a name containing `value` stores the
value tree, any other name must contain `ssz_snappy` and becomes the payload
path; otherwise the assertion fails.  `content` is what `read_yaml` would
return for the child (it is only consulted by the `meta`/`value` branches,
matching the lazy reads in the source). -/
def load_case_part (tc : TestCase) (part_name part_path : String) (content : Yaml) :
    Except String TestCase :=
  if str_has part_name "meta" then
    match content with
    | .map kvs =>
      match yaml_map_get "root" kvs with
      | none => .error "called Option::unwrap() on a None value"
      | some root_node =>
        match yaml_as_str root_node with
        | none => .error "called Option::unwrap() on a None value"
        | some root => .ok { tc with root := some root }
    | _ => .error "called Option::unwrap() on a None value"
  else if str_has part_name "value" then
    .ok { tc with value := some content }
  else if str_has part_name "ssz_snappy" then
    .ok { tc with data_path := some part_path }
  else
    .error snappy_assert_msg

/-! ## Source emission -/

/-- `SRC_DIR`: the corpus root the generator reads from. -/
def src_dir : String := "consensus-spec-tests/tests/general/phase0/ssz_generic/"

/-- `SRC_PREAMBLE`: the fixed preamble of every generated test file. -/
def src_preamble : String :=
  "//! This file was generated by `ssz-rs-test-gen`; do NOT manually edit.\nmod test_utils;\n\nuse ssz_rs::prelude::*;\nuse test_utils::\x7b\n    deserialize, hash_tree_root, read_ssz_snappy_from_test_data, root_from_hex, serialize,\n\x7d;\n"

/-- `CONTAINERS_DEFN_FMT`: the six exemplar container definitions emitted for
the containers category. -/
def containers_defn : String :=
  "\n#[derive(PartialEq, Eq, Debug, Default, SimpleSerialize)]\nstruct SingleFieldTestStruct \x7b\n    a: u8,\n\x7d\n\n#[derive(PartialEq, Eq, Debug, Default, SimpleSerialize)]\nstruct SmallTestStruct \x7b\n    a: u16,\n    b: u16,\n\x7d\n\n#[derive(PartialEq, Eq, Debug, Default, Clone, SimpleSerialize)]\nstruct FixedTestStruct \x7b\n    a: u8,\n    b: u64,\n    c: u32,\n\x7d\n\n#[derive(PartialEq, Eq, Debug, Default, Clone, SimpleSerialize)]\nstruct VarTestStruct \x7b\n    a: u16,\n    b: List<u16, 1024>,\n    c: u8,\n\x7d\n\n#[derive(PartialEq, Eq, Debug, Default, SimpleSerialize)]\nstruct ComplexTestStruct \x7b\n    a: u16,\n    b: List<u16, 128>,\n    c: u8,\n    d: List<u8, 256>,\n    e: VarTestStruct,\n    f: Vector<FixedTestStruct, 4>,\n    g: Vector<VarTestStruct, 2>,\n\x7d\n\n#[derive(PartialEq, Eq, Debug, Default, SimpleSerialize)]\nstruct BitsStruct \x7b\n    a: Bitlist<5>,\n    b: Bitvector<2>,\n    c: Bitvector<1>,\n    d: Bitlist<6>,\n    e: Bitvector<8>,\n\x7d\n"

/-- The components written before any test fragment (`Generator::new`):
the preamble, plus the container definitions for the containers category. -/
def generator_components (t : SszType) : List String :=
  match t with
  | .container => [src_preamble, containers_defn]
  | _ => [src_preamble]

/-- The test fragment emitted for a valid case (the `Format::Valid` format
string in `Generator::execute`, with the holes filled in).  The chunking of
the literal pieces mirrors the semantic parts of the template. -/
def valid_test_source (ssz_type name value rust_type target_data_path root : String) :
    String :=
  "\n                #[test]\n                fn test_" ++ ssz_type ++ "_" ++
  to_snake name ++ "() \x7b\n                    " ++
  "let value = " ++ value ++ ";" ++
  "\n                    let encoding = serialize(&value);\n                    let expected_encoding = " ++
  "read_ssz_snappy_from_test_data(\"" ++ target_data_path ++ "\")" ++
  ";\n                    " ++
  "assert_eq!(encoding, expected_encoding);" ++
  "\n\n                    " ++
  "let recovered_value: " ++ rust_type ++ " = deserialize(&expected_encoding);" ++
  "\n                    " ++
  "assert_eq!(recovered_value, value);" ++
  "\n\n                    let root = hash_tree_root(&value);\n                    let expected_root = " ++
  "root_from_hex(\"" ++ root ++ "\")" ++
  ";\n                    " ++
  "assert_eq!(root, expected_root);" ++
  "\n                \x7d\n                "

/-- The test fragment emitted for an invalid case (the `Format::Invalid`
format string in `Generator::execute`). -/
def invalid_test_source (ssz_type name rust_type target_data_path : String) : String :=
  "\n                " ++ "#[test]" ++ "\n                " ++ "#[should_panic]" ++
  "\n                fn test_" ++ ssz_type ++ "_" ++ to_snake name ++ "() " ++
  "\x7b\n                    let encoding = read_ssz_snappy_from_test_data(\"" ++
  target_data_path ++ "\");\n\n                    deserialize::<" ++ rust_type ++
  ">(&encoding);\n                \x7d" ++
  "\n                "

/-- The project-relative data path embedded into a generated test: the source
path is stripped of `SRC_DIR` and re-rooted at `TARGET_DIR/data`
(`"../ssz-rs/tests/"` joined with `data`), then stripped of the leading
`..` component for display. -/
def to_target_data_path (data_path : String) : Option String :=
  (strip_front src_dir data_path).map (fun rel => "ssz-rs/tests/data/" ++ rel)

/-- The per-case emission step of `Generator::execute`: unwrap the payload
path, compute the mirrored path and the Rust type, then render the valid or
invalid fragment.  `none` models the panics (missing payload path, missing
value or root on a valid case, an unparsable case name, a reconstruction
failure). -/
def emit_test_case (t : SszType) (name : String) (tc : TestCase) : Option String :=
  tc.data_path.bind fun data_path =>
  (to_target_data_path data_path).bind fun target_data_path =>
  (to_rust_type t name).bind fun rust_type =>
  match tc.format with
  | .valid =>
    tc.value.bind fun y =>
    (to_rust_value name rust_type y).bind fun value =>
    tc.root.bind fun root =>
    some (valid_test_source (ssz_type_name t) name value rust_type target_data_path root)
  | .invalid =>
    some (invalid_test_source (ssz_type_name t) name rust_type target_data_path)

/-! ## The run as an event trace -/

/-- Observable filesystem events of a generator run: loading a case
directory, creating the output file, writing a preamble component, copying a
payload into the test-data tree, and writing one test fragment. -/
inductive Event where
  | load (case_name : String)
  | create
  | writeComp (text : String)
  | copy (data_path : String)
  | writeFrag (case_name : String)
deriving DecidableEq

/-- The events of one iteration of the per-case loop in
`Generator::execute`: the payload copy happens first, then the fragment is
emitted and written. -/
def case_events (t : SszType) (c : String × TestCase) : Option (List Event) :=
  match c.2.data_path with
  | none => none
  | some data_path =>
    match emit_test_case t c.1 c.2 with
    | none => none
    | some _ => some [Event.copy data_path, Event.writeFrag c.1]

/-- The per-case loop of `Generator::execute` over the case map in key
order; `none` if any iteration panics. -/
def all_case_events (t : SszType) : List (String × TestCase) → Option (List (List Event))
  | [] => some []
  | c :: cs =>
    match case_events t c with
    | none => none
    | some b => (all_case_events t cs).map (fun bs => b :: bs)

/-- The event trace of `Generator::execute` for a completed run: create the
output file, write the preamble components, then for each case copy its
payload and write its fragment.  `cases` is the `BTreeMap` contents in
ascending key order. -/
def execute_events (t : SszType) (comps : List String)
    (cases : List (String × TestCase)) : Option (List Event) :=
  (all_case_events t cases).map (fun bs =>
    Event.create :: (comps.map Event.writeComp ++ bs.flatten))

/-- The event trace of `generate_for`: both loading passes (valid then
invalid directories) precede `Generator::execute`. -/
def generate_for_events (t : SszType) (loaded : List String) (comps : List String)
    (cases : List (String × TestCase)) : Option (List Event) :=
  (execute_events t comps cases).map (fun tr => loaded.map Event.load ++ tr)

/-! ## Formalised claim statements and concrete run fragments -/

/-- The field names each exemplar container declares
(from `CONTAINERS_DEFN_FMT`). -/
def container_field_names (rust_type : String) : List String :=
  if rust_type = "SingleFieldTestStruct" then ["a"]
  else if rust_type = "SmallTestStruct" then ["a", "b"]
  else if rust_type = "FixedTestStruct" then ["a", "b", "c"]
  else if rust_type = "VarTestStruct" then ["a", "b", "c"]
  else if rust_type = "ComplexTestStruct" then ["a", "b", "c", "d", "e", "f", "g"]
  else if rust_type = "BitsStruct" then ["a", "b", "c", "d", "e"]
  else []

/-- The lower-cased field names of a mapping, in order (defined only when
every key is a string, as `to_rust_struct` requires). -/
def lowered_keys : List (Yaml × Yaml) → Option (List String)
  | [] => some []
  | (k, _) :: rest =>
    match k with
    | .str s => (lowered_keys rest).map (fun ks => lower_str s :: ks)
    | _ => none

/-- Claim C4 as stated: a mapping with duplicate (lower-cased) field names,
or missing a declared field of the container, makes the generator abort
rather than render a container literal. -/
def claimC4 : Prop :=
  ∀ (rust_type : String) (kvs : List (Yaml × Yaml)) (ks : List String),
    rust_type ∈ exemplar_containers →
    lowered_keys kvs = some ks →
    (¬ ks.Nodup ∨ ∃ f ∈ container_field_names rust_type, f ∉ ks) →
    to_rust_struct (Yaml.map kvs) rust_type = none

/-- Claim C5 as stated: a case-directory child whose name contains neither
`meta` nor `value` is recorded as the payload path when its name contains
`ssz_snappy`, and otherwise causes a fatal error whose message names that
file. -/
def claimC5 : Prop :=
  ∀ (tc : TestCase) (part_name part_path : String) (content : Yaml),
    str_has part_name "meta" = false →
    str_has part_name "value" = false →
    (str_has part_name "ssz_snappy" = true →
      load_case_part tc part_name part_path content =
        .ok { tc with data_path := some part_path }) ∧
    (str_has part_name "ssz_snappy" = false →
      ∃ msg, load_case_part tc part_name part_path content = .error msg ∧
        str_has msg part_name = true)

/-- Claim C6 as stated: in a completed run, every artifact copy comes after
every fragment write (copy-all-artifacts is a phase after write-file). -/
def claimC6 : Prop :=
  ∀ (t : SszType) (loaded : List String) (cases : List (String × TestCase))
    (tr : List Event),
    generate_for_events t loaded (generator_components t) cases = some tr →
    ∀ (i j : Nat) (p n : String),
      tr[i]? = some (Event.copy p) → tr[j]? = some (Event.writeFrag n) → j < i

/-- Payload path of the concrete single-case run used to analyse the phase
order of `Generator::execute`. -/
def c6_path : String := src_dir ++ "boolean/invalid/case_1/serialized.ssz_snappy"

/-- A loaded invalid test case with that payload. -/
def c6_tc : TestCase :=
  { root := none, value := none, data_path := some c6_path, format := .invalid }

/-- The single-case run. -/
def c6_cases : List (String × TestCase) := [("case_1", c6_tc)]

/-- Its complete event trace. -/
def c6_trace : List Event :=
  [Event.create, Event.writeComp src_preamble, Event.copy c6_path,
   Event.writeFrag "case_1"]

/-- A loaded valid boolean case used to exercise the valid-fragment
emission concretely. -/
def c1_tc : TestCase :=
  { root := some "cafe", value := some (Yaml.bool true),
    data_path := some (src_dir ++ "boolean/valid/true/serialized.ssz_snappy"),
    format := .valid }

/-- The fragment the generator emits for `c1_tc`. -/
def c1_frag : String :=
  valid_test_source "boolean" "true" "true" "bool"
    "ssz-rs/tests/data/boolean/valid/true/serialized.ssz_snappy" "cafe"

/-- A valid boolean case whose directory carried no metadata file: the value
is present but the expected root is absent. -/
def c9_tc : TestCase :=
  { root := none, value := some (Yaml.bool true),
    data_path := some (src_dir ++ "boolean/valid/true/serialized.ssz_snappy"),
    format := .valid }

/-! # Theorems -/

/-! ## Little-endian byte-sequence lemmas -/

theorem leb_decode_replicate_zero (m : Nat) :
    leb_decode (List.replicate m 0) = 0 := by
  induction m with
  | zero => rfl
  | succ m ih => simp [List.replicate, leb_decode, ih]

theorem leb_decode_append_zeros (bs : List Nat) (m : Nat) :
    leb_decode (bs ++ List.replicate m 0) = leb_decode bs := by
  induction bs with
  | nil => simp [leb_decode, leb_decode_replicate_zero]
  | cons b bs ih => simp [leb_decode, ih]

theorem leb_decode_bytes_le_aux :
    ∀ (k fuel n : Nat), n < 256 ^ k → k ≤ fuel →
      leb_decode (bytes_le_aux fuel n) = n := by
  intro k
  induction k with
  | zero =>
    intro fuel n hn _
    interval_cases n
    cases fuel <;> simp [bytes_le_aux, leb_decode]
  | succ k ih =>
    intro fuel n hn hfuel
    cases fuel with
    | zero => omega
    | succ f =>
      by_cases h0 : n = 0
      · subst h0; simp [bytes_le_aux, leb_decode]
      · have hdiv : n / 256 < 256 ^ k := by
          rw [Nat.div_lt_iff_lt_mul (by norm_num)]
          calc n < 256 ^ (k + 1) := hn
            _ = 256 ^ k * 256 := by ring
        have := ih f (n / 256) hdiv (by omega)
        simp only [bytes_le_aux, h0, if_false, leb_decode, this]
        omega

theorem length_bytes_le_aux_le :
    ∀ (fuel k n : Nat), n < 256 ^ k → (bytes_le_aux fuel n).length ≤ k := by
  intro fuel
  induction fuel with
  | zero => intro k n _; simp [bytes_le_aux]
  | succ f ih =>
    intro k n hn
    by_cases h0 : n = 0
    · subst h0; simp [bytes_le_aux]
    · cases k with
      | zero => omega
      | succ k =>
        have hdiv : n / 256 < 256 ^ k := by
          rw [Nat.div_lt_iff_lt_mul (by norm_num)]
          calc n < 256 ^ (k + 1) := hn
            _ = 256 ^ k * 256 := by ring
        have := ih k (n / 256) hdiv
        simp only [bytes_le_aux, h0, if_false, List.length_cons]
        omega

theorem length_bytes_le_aux_ge :
    ∀ (k fuel n : Nat), 256 ^ k ≤ n → k + 1 ≤ fuel →
      k + 1 ≤ (bytes_le_aux fuel n).length := by
  intro k
  induction k with
  | zero =>
    intro fuel n hn hfuel
    cases fuel with
    | zero => omega
    | succ f =>
      have h0 : n ≠ 0 := by simp only [pow_zero] at hn; omega
      simp [bytes_le_aux, h0]
  | succ k ih =>
    intro fuel n hn hfuel
    cases fuel with
    | zero => omega
    | succ f =>
      have h0 : n ≠ 0 := by
        have : (0 : Nat) < 256 ^ (k + 1) := Nat.pos_pow_of_pos _ (by norm_num)
        omega
      have hdiv : 256 ^ k ≤ n / 256 := by
        rw [Nat.le_div_iff_mul_le (by norm_num)]
        calc 256 ^ k * 256 = 256 ^ (k + 1) := by ring
          _ ≤ n := hn
      have := ih f (n / 256) hdiv (by omega)
      simp only [bytes_le_aux, h0, if_false, List.length_cons]
      omega

theorem to_bytes_le_len_le (n : Nat) (h : n < 256 ^ 32) :
    (to_bytes_le n).length ≤ 32 := by
  unfold to_bytes_le
  by_cases h0 : n = 0
  · simp [h0]
  · simp only [h0, if_false]
    exact length_bytes_le_aux_le 33 32 n h

theorem to_bytes_le_len_gt (n : Nat) (h : 256 ^ 32 ≤ n) :
    32 < (to_bytes_le n).length := by
  have h0 : n ≠ 0 := by
    have : (0 : Nat) < 256 ^ 32 := Nat.pos_pow_of_pos _ (by norm_num)
    omega
  unfold to_bytes_le
  simp only [h0, if_false]
  have := length_bytes_le_aux_ge 32 33 n h (by norm_num)
  omega

theorem to_bytes_le_decode (n : Nat) (h : n < 256 ^ 32) :
    leb_decode (to_bytes_le n) = n := by
  unfold to_bytes_le
  by_cases h0 : n = 0
  · simp [h0, leb_decode]
  · simp only [h0, if_false]
    exact leb_decode_bytes_le_aux 32 33 n h (by norm_num)

/-! ## C2: wide-integer reconstruction pads to 32 bytes; overflow is fatal -/

/-- Claim C2: for every scalar string that parses as a non-negative base-10
integer, `to_rust_u256` renders the `U256` literal built from a 32-byte
little-endian sequence decoding to that integer (the minimal little-endian
bytes right-padded with zeros — the 32-byte little-endian encoding of a value
below `256 ^ 32` is unique), and aborts (`none`) exactly when the minimal
little-endian encoding exceeds 32 bytes, i.e. when the value is at least
`256 ^ 32`. -/
theorem to_rust_u256_pads_to_32 (s : String) (n : Nat)
    (hparse : parse_biguint s = some n) :
    (n < 256 ^ 32 →
      ∃ bs, to_rust_u256 (Yaml.str s) = some (u256_literal bs) ∧
        bs.length = 32 ∧ leb_decode bs = n) ∧
    (256 ^ 32 ≤ n → to_rust_u256 (Yaml.str s) = none) := by
  constructor
  · intro hlt
    have hlen := to_bytes_le_len_le n hlt
    refine ⟨to_bytes_le n ++ List.replicate (32 - (to_bytes_le n).length) 0, ?_, ?_, ?_⟩
    · simp [to_rust_u256, yaml_as_str, hparse, hlen]
    · simp only [List.length_append, List.length_replicate]
      omega
    · rw [leb_decode_append_zeros]
      exact to_bytes_le_decode n hlt
  · intro hge
    have hlen := to_bytes_le_len_gt n hge
    simp [to_rust_u256, yaml_as_str, hparse]
    omega

/-- Witness for C2 at the input scalar `"1"`. -/
theorem to_rust_u256_pads_to_32_witness :
    ∃ bs, to_rust_u256 (Yaml.str "1") = some (u256_literal bs) ∧
      bs.length = 32 ∧ leb_decode bs = 1 :=
  (to_rust_u256_pads_to_32 "1" 1 rfl).1 (by norm_num)

/-! ## C8: the wide-integer reconstruction of 2^128 -/

set_option maxRecDepth 2000 in
/-- Claim C8: the input scalar `"340282366920938463463374607431768211456"`
(2^128) yields the `U256` literal over a 32-byte sequence whose first 17
bytes are the little-endian encoding of 2^128 (sixteen zero bytes then the
byte 1) and whose remaining 15 bytes are zero; the sequence decodes back to
2^128. -/
theorem to_rust_u256_two_pow_128 :
    to_rust_u256 (Yaml.str "340282366920938463463374607431768211456") =
      some (u256_literal (List.replicate 16 0 ++ 1 :: List.replicate 15 0)) ∧
    (List.replicate 16 0 ++ 1 :: List.replicate 15 0 : List Nat).take 17 =
      List.replicate 16 0 ++ [1] ∧
    (List.replicate 16 0 ++ 1 :: List.replicate 15 0 : List Nat).drop 17 =
      List.replicate 15 0 ∧
    leb_decode (List.replicate 16 0 ++ 1 :: List.replicate 15 0) = 2 ^ 128 := by
  decide

/-! ## C3: bit-list type descriptors -/

/-- Claim C3: for a bit-list case name of the shape `tag_bound[...]`, the
resolved type is `Bitlist::<256>` when the bound token is the literal `no`,
and `Bitlist::<bound>` for any other bound token. -/
theorem to_rust_type_bitlist_bound (name tag bound : String) (rest : List String)
    (hsplit : split_char '_' name = tag :: bound :: rest) :
    to_rust_type SszType.bitlist name =
      some (if bound = "no" then "Bitlist::<256>"
            else "Bitlist::<" ++ bound ++ ">") := by
  simp [to_rust_type, hsplit]

/-- Witness for C3 at the case name `bitlist_no_max`. -/
theorem to_rust_type_bitlist_bound_witness :
    to_rust_type SszType.bitlist "bitlist_no_max" = some "Bitlist::<256>" := by
  have h := to_rust_type_bitlist_bound "bitlist_no_max" "bitlist" "no" ["max"] rfl
  simpa using h

/-! ## C10: totality domain of the basic-vector resolver -/

/-- Claim C10: resolving a basic-vector case name succeeds exactly when the
name has at least three `_`-delimited tokens and the element-type token is
`bool`, `uint256`, or at least four characters long; any other shape panics
(out-of-bounds indexing or slicing), modelled by `none`. -/
theorem to_rust_type_basic_vector_total_iff (name : String) :
    (to_rust_type SszType.basic_vector name).isSome = true ↔
      ∃ tag elem bound rest, split_char '_' name = tag :: elem :: bound :: rest ∧
        (elem = "bool" ∨ elem = "uint256" ∨ 4 ≤ elem.length) := by
  rcases h : split_char '_' name with _ | ⟨t, _ | ⟨e, _ | ⟨b, rest⟩⟩⟩
  · simp [to_rust_type, h]
  · simp [to_rust_type, h]
  · simp [to_rust_type, h]
  · simp only [to_rust_type, h]
    constructor
    · intro hs
      refine ⟨t, e, b, rest, rfl, ?_⟩
      by_contra hc
      push_neg at hc
      obtain ⟨h1, h2, h3⟩ := hc
      simp [to_element_type, h1, h2, show ¬ (4 ≤ e.length) by omega] at hs
    · rintro ⟨tag, elem, bound, rest', heq, hd⟩
      obtain ⟨rfl, rfl, rfl, rfl⟩ := by simpa using heq
      rcases hd with h1 | h2 | h3
      · subst h1; simp [to_element_type]
      · subst h2; simp [to_element_type]
      · have hsome : (to_element_type e).isSome = true := by
          unfold to_element_type
          split_ifs <;> simp_all
        obtain ⟨et, het⟩ := Option.isSome_iff_exists.mp hsome
        simp [het]

/-! ## C9: a valid case without metadata aborts emission -/

/-- Claim C9: for a valid-format case whose expected root is absent (no
metadata file was loaded), the generator panics while emitting the fragment —
`test_case.root.unwrap()` aborts the run — even though every earlier step
(payload path, mirrored path, type resolution, value reconstruction)
succeeded; `TestCase.root` is an `Option` in the data model. -/
theorem emit_valid_missing_root_aborts (t : SszType) (name : String) (tc : TestCase)
    (dp tp rt : String) (y : Yaml) (v : String)
    (hfmt : tc.format = .valid) (hroot : tc.root = none)
    (hdp : tc.data_path = some dp) (htp : to_target_data_path dp = some tp)
    (hrt : to_rust_type t name = some rt) (hy : tc.value = some y)
    (hv : to_rust_value name rt y = some v) :
    emit_test_case t name tc = none := by
  simp [emit_test_case, hdp, htp, hrt, hfmt, hy, hv, hroot]

/-- Witness for C9: a concrete valid boolean case with value but no root. -/
theorem emit_valid_missing_root_aborts_witness :
    emit_test_case SszType.boolean "true" c9_tc = none :=
  emit_valid_missing_root_aborts SszType.boolean "true" c9_tc
    (src_dir ++ "boolean/valid/true/serialized.ssz_snappy")
    "ssz-rs/tests/data/boolean/valid/true/serialized.ssz_snappy" "bool"
    (Yaml.bool true) "true" rfl rfl rfl rfl rfl rfl rfl

/-! ## C1: the structure of a valid-case test fragment -/

/-- Claim C1: every fragment emitted for a valid-format case constructs the
reconstructed value (`let value = ...`) and then makes three assertions in
order: serialization equals the bytes read from the mirrored payload path,
deserialization of those bytes at the declared type equals the constructed
value, and the hash tree root of the value equals the root decoded from the
case's expected-root hex string. -/
theorem emit_valid_fragment_structure (t : SszType) (name : String) (tc : TestCase)
    (frag : String) (hfmt : tc.format = .valid)
    (hemit : emit_test_case t name tc = some frag) :
    ∃ (y : Yaml) (value rust_type target_path root p0 p1 q0 r0 s : String),
      tc.value = some y ∧ tc.root = some root ∧
      to_rust_type t name = some rust_type ∧
      to_rust_value name rust_type y = some value ∧
      (∃ dp, tc.data_path = some dp ∧ to_target_data_path dp = some target_path) ∧
      frag =
        p0 ++ "let value = " ++ value ++ ";" ++ p1 ++
        "read_ssz_snappy_from_test_data(\"" ++ target_path ++ "\")" ++
        ";\n                    " ++
        "assert_eq!(encoding, expected_encoding);" ++ q0 ++
        "assert_eq!(recovered_value, value);" ++ r0 ++
        "assert_eq!(root, expected_root);" ++ s ∧
      (∃ q00, q0 = q00 ++ "let recovered_value: " ++ rust_type ++
        " = deserialize(&expected_encoding);" ++ "\n                    ") ∧
      (∃ r00, r0 = r00 ++ "root_from_hex(\"" ++ root ++ "\")" ++
        ";\n                    ") := by
  simp only [emit_test_case, hfmt, Option.bind_eq_some, Option.some.injEq] at hemit
  obtain ⟨dp, hdp, tp, htp, rt, hrt, y, hy, v, hv, root, hroot, heq⟩ := hemit
  refine ⟨y, v, rt, tp, root,
    "\n                #[test]\n                fn test_" ++ ssz_type_name t ++ "_" ++
      to_snake name ++ "() \x7b\n                    ",
    "\n                    let encoding = serialize(&value);\n                    let expected_encoding = ",
    "\n\n                    " ++ "let recovered_value: " ++ rt ++
      " = deserialize(&expected_encoding);" ++ "\n                    ",
    "\n\n                    let root = hash_tree_root(&value);\n                    let expected_root = " ++
      "root_from_hex(\"" ++ root ++ "\")" ++ ";\n                    ",
    "\n                \x7d\n                ",
    hy, hroot, hrt, hv, ⟨dp, hdp, htp⟩, ?_,
    ⟨"\n\n                    ", rfl⟩,
    ⟨"\n\n                    let root = hash_tree_root(&value);\n                    let expected_root = ",
      rfl⟩⟩
  rw [← heq]
  simp only [valid_test_source, String.append_assoc]

/-- Witness for C1: the concrete valid boolean case `c1_tc`. -/
theorem emit_valid_fragment_structure_witness :
    ∃ (y : Yaml) (value rust_type target_path root p0 p1 q0 r0 s : String),
      c1_tc.value = some y ∧ c1_tc.root = some root ∧
      to_rust_type SszType.boolean "true" = some rust_type ∧
      to_rust_value "true" rust_type y = some value ∧
      (∃ dp, c1_tc.data_path = some dp ∧ to_target_data_path dp = some target_path) ∧
      c1_frag =
        p0 ++ "let value = " ++ value ++ ";" ++ p1 ++
        "read_ssz_snappy_from_test_data(\"" ++ target_path ++ "\")" ++
        ";\n                    " ++
        "assert_eq!(encoding, expected_encoding);" ++ q0 ++
        "assert_eq!(recovered_value, value);" ++ r0 ++
        "assert_eq!(root, expected_root);" ++ s ∧
      (∃ q00, q0 = q00 ++ "let recovered_value: " ++ rust_type ++
        " = deserialize(&expected_encoding);" ++ "\n                    ") ∧
      (∃ r00, r0 = r00 ++ "root_from_hex(\"" ++ root ++ "\")" ++
        ";\n                    ") :=
  emit_valid_fragment_structure SszType.boolean "true" c1_tc c1_frag rfl rfl

/-! ## C7: the structure of an invalid-case test fragment -/

/-- Claim C7: every fragment emitted for an invalid-format case is a test
marked `#[should_panic]` (it passes only if the body panics) whose body only
reads the mirrored payload bytes and deserializes them at the declared type:
everything from the opening brace to the closing brace is exactly the read
and the deserialization. -/
theorem emit_invalid_fragment_structure (t : SszType) (name : String) (tc : TestCase)
    (frag : String) (hfmt : tc.format = .invalid)
    (hemit : emit_test_case t name tc = some frag) :
    ∃ (rust_type target_path : String),
      to_rust_type t name = some rust_type ∧
      (∃ dp, tc.data_path = some dp ∧ to_target_data_path dp = some target_path) ∧
      ∃ a0 a1,
        frag = a0 ++ "#[should_panic]" ++ a1 ++
          ("\x7b\n                    let encoding = read_ssz_snappy_from_test_data(\"" ++
           target_path ++ "\");\n\n                    deserialize::<" ++ rust_type ++
           ">(&encoding);\n                \x7d") ++ "\n                " ∧
        ∃ a00, a0 = a00 ++ "#[test]" ++ "\n                " := by
  simp only [emit_test_case, hfmt, Option.bind_eq_some, Option.some.injEq] at hemit
  obtain ⟨dp, hdp, tp, htp, rt, hrt, heq⟩ := hemit
  refine ⟨rt, tp, hrt, ⟨dp, hdp, htp⟩,
    "\n                " ++ "#[test]" ++ "\n                ",
    "\n                fn test_" ++ ssz_type_name t ++ "_" ++ to_snake name ++ "() ",
    ?_, ⟨"\n                ", rfl⟩⟩
  rw [← heq]
  simp only [invalid_test_source, String.append_assoc]

/-- Witness for C7: the concrete invalid boolean case `c6_tc`. -/
theorem emit_invalid_fragment_structure_witness :
    ∃ (rust_type target_path : String),
      to_rust_type SszType.boolean "case_1" = some rust_type ∧
      (∃ dp, c6_tc.data_path = some dp ∧ to_target_data_path dp = some target_path) ∧
      ∃ a0 a1,
        invalid_test_source "boolean" "case_1" "bool"
            "ssz-rs/tests/data/boolean/invalid/case_1/serialized.ssz_snappy" =
          a0 ++ "#[should_panic]" ++ a1 ++
          ("\x7b\n                    let encoding = read_ssz_snappy_from_test_data(\"" ++
           target_path ++ "\");\n\n                    deserialize::<" ++ rust_type ++
           ">(&encoding);\n                \x7d") ++ "\n                " ∧
        ∃ a00, a0 = a00 ++ "#[test]" ++ "\n                " :=
  emit_invalid_fragment_structure SszType.boolean "case_1" c6_tc
    (invalid_test_source "boolean" "case_1" "bool"
      "ssz-rs/tests/data/boolean/invalid/case_1/serialized.ssz_snappy") rfl rfl

/-! ## C4: no duplicate/missing-field check in container reconstruction -/

/-- Counterexample to claim C4: the empty mapping is missing the declared
field `a` of `SingleFieldTestStruct`, yet `to_rust_struct` renders the
container literal `SingleFieldTestStruct{}` instead of aborting. -/
theorem to_rust_struct_missing_field_not_fatal : ¬ claimC4 := by
  intro h
  have hc := h "SingleFieldTestStruct" [] [] (by simp [exemplar_containers]) rfl
    (Or.inr ⟨"a", by simp [container_field_names], by simp⟩)
  rw [show to_rust_struct (Yaml.map []) "SingleFieldTestStruct" =
      some ("SingleFieldTestStruct" ++ "\x7b" ++ join_sep ", " [] ++ "\x7d") from by
    simp [to_rust_struct, struct_fields]] at hc
  exact Option.noConfusion hc

/-- Claim C4 amended: the generator performs no uniqueness or completeness
check on container mappings.  Whenever every field of the mapping renders,
`to_rust_struct` produces the container literal from exactly the mapping's
entries (lower-cased, in insertion order) — even when the mapping is missing
a declared field of the container or its lower-cased field names collide.
Such problems surface only when the generated code is compiled, not as a
generator fatal error. -/
theorem to_rust_struct_renders_any_fields (rust_type : String)
    (kvs : List (Yaml × Yaml)) (ks fields : List String)
    (hc : rust_type ∈ exemplar_containers)
    (hks : lowered_keys kvs = some ks)
    (hbad : ¬ ks.Nodup ∨ ∃ f ∈ container_field_names rust_type, f ∉ ks)
    (hfields : struct_fields kvs rust_type = some fields) :
    to_rust_struct (Yaml.map kvs) rust_type =
      some (rust_type ++ "\x7b" ++ join_sep ", " fields ++ "\x7d") := by
  simp [to_rust_struct, hfields]

/-- Witness for the amended C4: the empty mapping for
`SingleFieldTestStruct` (missing its declared field `a`) still renders. -/
theorem to_rust_struct_renders_any_fields_witness :
    to_rust_struct (Yaml.map []) "SingleFieldTestStruct" =
      some ("SingleFieldTestStruct" ++ "\x7b" ++ join_sep ", " [] ++ "\x7d") :=
  to_rust_struct_renders_any_fields "SingleFieldTestStruct" [] [] []
    (by simp [exemplar_containers]) rfl
    (Or.inr ⟨"a", by simp [container_field_names], by simp⟩)
    (by simp [struct_fields])

/-! ## C5: unrecognized case-directory children -/

/-- Counterexample to claim C5: for the child `extra.txt` (containing
neither `meta`, `value` nor `ssz_snappy`) the loader does abort, but the
panic message is the fixed assertion text, which does not name the file. -/
theorem load_case_part_error_not_named : ¬ claimC5 := by
  intro h
  obtain ⟨msg, hmsg, hnamed⟩ :=
    (h {} "extra.txt" "p" (Yaml.str "") rfl rfl).2 rfl
  rw [show load_case_part {} "extra.txt" "p" (Yaml.str "") =
      Except.error snappy_assert_msg from rfl] at hmsg
  injection hmsg with hmsg'
  subst hmsg'
  exact absurd hnamed (by decide)

/-- Claim C5 amended: a child whose name contains neither `meta` nor `value`
is recorded as the case's payload path when its name contains `ssz_snappy`,
and otherwise the loader aborts with the fixed assertion-failure message
`assertion failed: part_name.contains("ssz_snappy")` — a message that states
the required pattern but does not name the offending file. -/
theorem load_case_part_classifies (tc : TestCase) (part_name part_path : String)
    (content : Yaml)
    (hm : str_has part_name "meta" = false)
    (hv : str_has part_name "value" = false) :
    (str_has part_name "ssz_snappy" = true →
      load_case_part tc part_name part_path content =
        .ok { tc with data_path := some part_path }) ∧
    (str_has part_name "ssz_snappy" = false →
      load_case_part tc part_name part_path content = .error snappy_assert_msg) := by
  constructor <;> intro hs <;> simp [load_case_part, hm, hv, hs]

/-- Witness for the amended C5: a payload child is recorded. -/
theorem load_case_part_classifies_witness :
    load_case_part {} "part.ssz_snappy" "path0" (Yaml.str "") =
      .ok { data_path := some "path0" } :=
  (load_case_part_classifies {} "part.ssz_snappy" "path0" (Yaml.str "") rfl rfl).1 rfl

/-! ## C6: phase order of a run -/

/-- Counterexample to claim C6: in the concrete single-case boolean run, the
payload copy (index 2 of the trace) happens before the fragment write
(index 3), so copies are not a phase after all fragment writes. -/
theorem copy_before_write_counterexample : ¬ claimC6 := by
  intro h
  have h2 := h SszType.boolean [] c6_cases c6_trace rfl 2 3 c6_path "case_1" rfl rfl
  omega

theorem case_events_spec (t : SszType) (c : String × TestCase) (b : List Event)
    (h : case_events t c = some b) :
    ∃ p, c.2.data_path = some p ∧ b = [Event.copy p, Event.writeFrag c.1] := by
  unfold case_events at h
  cases hdp : c.2.data_path with
  | none => rw [hdp] at h; simp at h
  | some p =>
    rw [hdp] at h
    cases hem : emit_test_case t c.1 c.2 with
    | none => rw [hem] at h; simp at h
    | some s =>
      rw [hem] at h
      simp only [Option.some.injEq] at h
      exact ⟨p, rfl, h.symm⟩

theorem all_case_events_spec (t : SszType) :
    ∀ (cases : List (String × TestCase)) (bs : List (List Event)),
      all_case_events t cases = some bs →
      List.Forall₂ (fun (c : String × TestCase) (b : List Event) =>
        ∃ p, c.2.data_path = some p ∧ b = [Event.copy p, Event.writeFrag c.1])
        cases bs := by
  intro cases
  induction cases with
  | nil =>
    intro bs h
    simp only [all_case_events, Option.some.injEq] at h
    subst h
    exact List.Forall₂.nil
  | cons c cs ih =>
    intro bs h
    simp only [all_case_events] at h
    cases hce : case_events t c with
    | none => rw [hce] at h; simp at h
    | some b =>
      rw [hce] at h
      cases hrest : all_case_events t cs with
      | none => rw [hrest] at h; simp at h
      | some bs' =>
        rw [hrest] at h
        simp only [Option.map_some', Option.some.injEq] at h
        subst h
        exact List.Forall₂.cons (case_events_spec t c b hce) (ih bs' hrest)

/-- Claim C6 amended: a completed run proceeds as load-all-cases first, then
create the output file and write the preamble components, then — per case,
in name order — copy that case's payload artifact and then write its test
fragment.  Artifact copies are interleaved with fragment writes (each case's
copy immediately precedes its own fragment write); they are not deferred
until after all fragments have been written. -/
theorem generate_for_phase_order (t : SszType) (loaded comps : List String)
    (cases : List (String × TestCase)) (tr : List Event)
    (h : generate_for_events t loaded comps cases = some tr) :
    ∃ blocks : List (List Event),
      tr = loaded.map Event.load ++
        Event.create :: (comps.map Event.writeComp ++ blocks.flatten) ∧
      List.Forall₂ (fun (c : String × TestCase) (b : List Event) =>
        ∃ p, c.2.data_path = some p ∧ b = [Event.copy p, Event.writeFrag c.1])
        cases blocks := by
  simp only [generate_for_events, execute_events, Option.map_eq_some'] at h
  obtain ⟨bs, hbs, htr⟩ := h
  obtain ⟨bs', hbs', hbs2⟩ := hbs
  exact ⟨bs', by rw [← htr, ← hbs2], all_case_events_spec t cases bs' hbs'⟩

/-- Witness for the amended C6: the concrete single-case boolean run. -/
theorem generate_for_phase_order_witness :
    ∃ blocks : List (List Event),
      c6_trace = ([] : List String).map Event.load ++
        Event.create :: ([src_preamble].map Event.writeComp ++ blocks.flatten) ∧
      List.Forall₂ (fun (c : String × TestCase) (b : List Event) =>
        ∃ p, c.2.data_path = some p ∧ b = [Event.copy p, Event.writeFrag c.1])
        c6_cases blocks :=
  generate_for_phase_order SszType.boolean [] [src_preamble] c6_cases c6_trace rfl
